import Mathlib

/-!
Verification development for the opencode-mem memory engine.

Shallow embedding of:
- the `UserProfileValidator` schema validator (src/services/ai/validators);
- the bounded structured-extraction loop `executeToolCall`
  (`OpenAIChatCompletionProvider`);
- the `AutoCaptureService` capture-buffer state machine and
  `performAutoCapture`;
- the `LocalMemoryClient` vector-store operations (`listMemories`,
  `deleteMemory`, `searchMemories`);
- the cached `EmbeddingService.embed`;
- the REST handler `handleBulkDelete`.

Conventions: JavaScript objects parsed from JSON are modelled by `JsonVal`;
JavaScript `Map` and `Set` by insertion-ordered association lists / lists;
epoch-millisecond timestamps by `Int`; float vectors by `List Rat`.
External effects (HTTP calls, the language model, the embedding backend,
storage faults) are supplied as explicit oracle parameters, so every
definition is executable.
-/

/-- A JSON value as produced by `JSON.parse`. -/
inductive JsonVal where
  | null : JsonVal
  | bool (b : Bool) : JsonVal
  | num (q : Rat) : JsonVal
  | str (s : String) : JsonVal
  | arr (xs : List JsonVal) : JsonVal
  | obj (fields : List (String × JsonVal)) : JsonVal
deriving Repr

namespace JsonVal

/-- `v === null` in JavaScript. -/
def isNull : JsonVal → Bool
  | .null => true
  | _ => false

/-- JavaScript truthiness of a value. Arrays and objects are always truthy,
even when empty. -/
def jsTruthy : JsonVal → Bool
  | .null => false
  | .bool b => b
  | .num q => q != 0
  | .str s => s != ""
  | .arr _ => true
  | .obj _ => true

/-- Property access `v.k`: a field lookup on an object, `undefined`
(modelled as `none`) on everything else. -/
def getField : JsonVal → String → Option JsonVal
  | .obj fields, k => fields.lookup k
  | _, _ => none

/-- `typeof v === "object" && v` in JavaScript: a non-null object or an
array. -/
def isJsObject : JsonVal → Bool
  | .obj _ => true
  | .arr _ => true
  | _ => false

end JsonVal

/-- Result shape returned by `UserProfileValidator.validate`. -/
structure ValidationResult where
  valid : Bool
  errors : List String
  data : Option JsonVal
deriving Repr

namespace UserProfileValidator

/-- `validatePreferences`: per-element required-field checks for the
`preferences` collection, collecting every violation. -/
def validatePreferences (preferences : JsonVal) : List String :=
  match preferences with
  | .arr prefs => checkList prefs 0
  | _ => ["preferences must be an array"]
where
  checkElem (i : Nat) (pref : JsonVal) : List String :=
    if ¬ (pref.jsTruthy && pref.isJsObject) then
      ["preferences[" ++ toString i ++ "] is not an object"]
    else
      (match pref.getField "category" with
        | some (.str s) => if s = "" then ["preferences[" ++ toString i ++ "].category is missing or invalid"] else []
        | _ => ["preferences[" ++ toString i ++ "].category is missing or invalid"]) ++
      (match pref.getField "description" with
        | some (.str s) => if s = "" then ["preferences[" ++ toString i ++ "].description is missing or invalid"] else []
        | _ => ["preferences[" ++ toString i ++ "].description is missing or invalid"]) ++
      (match pref.getField "confidence" with
        | some (.num _) => []
        | _ => ["preferences[" ++ toString i ++ "].confidence is missing or invalid"]) ++
      (match pref.getField "evidence" with
        | some (.arr es) => if es.isEmpty then ["preferences[" ++ toString i ++ "].evidence cannot be empty"] else []
        | _ => ["preferences[" ++ toString i ++ "].evidence must be an array"])
  checkList : List JsonVal → Nat → List String
    | [], _ => []
    | p :: rest, i => checkElem i p ++ checkList rest (i + 1)

/-- `validatePatterns`: per-element checks for the `patterns` collection. -/
def validatePatterns (patterns : JsonVal) : List String :=
  match patterns with
  | .arr pats => checkList pats 0
  | _ => ["patterns must be an array"]
where
  checkElem (i : Nat) (pattern : JsonVal) : List String :=
    if ¬ (pattern.jsTruthy && pattern.isJsObject) then
      ["patterns[" ++ toString i ++ "] is not an object"]
    else
      (match pattern.getField "category" with
        | some (.str s) => if s = "" then ["patterns[" ++ toString i ++ "].category is missing or invalid"] else []
        | _ => ["patterns[" ++ toString i ++ "].category is missing or invalid"]) ++
      (match pattern.getField "description" with
        | some (.str s) => if s = "" then ["patterns[" ++ toString i ++ "].description is missing or invalid"] else []
        | _ => ["patterns[" ++ toString i ++ "].description is missing or invalid"])
  checkList : List JsonVal → Nat → List String
    | [], _ => []
    | p :: rest, i => checkElem i p ++ checkList rest (i + 1)

/-- `validateWorkflows`: per-element checks for the `workflows` collection. -/
def validateWorkflows (workflows : JsonVal) : List String :=
  match workflows with
  | .arr wfs => checkList wfs 0
  | _ => ["workflows must be an array"]
where
  checkElem (i : Nat) (workflow : JsonVal) : List String :=
    if ¬ (workflow.jsTruthy && workflow.isJsObject) then
      ["workflows[" ++ toString i ++ "] is not an object"]
    else
      (match workflow.getField "description" with
        | some (.str s) => if s = "" then ["workflows[" ++ toString i ++ "].description is missing or invalid"] else []
        | _ => ["workflows[" ++ toString i ++ "].description is missing or invalid"]) ++
      (match workflow.getField "steps" with
        | some (.arr ss) => if ss.isEmpty then ["workflows[" ++ toString i ++ "].steps cannot be empty"] else []
        | _ => ["workflows[" ++ toString i ++ "].steps must be an array"])
  checkList : List JsonVal → Nat → List String
    | [], _ => []
    | w :: rest, i => checkElem i w ++ checkList rest (i + 1)

/-- `UserProfileValidator.validate`: top-level structural validation of a
parsed tool payload, collecting all violations before failing. `null`
fields are reported per key; the per-collection validators run only on
truthy collection fields. -/
def validate (data : JsonVal) : ValidationResult :=
  match data with
  | .arr _ => { valid := false, errors := ["Response cannot be an array"], data := none }
  | .obj fields =>
    if fields.isEmpty then
      { valid := false, errors := ["Response object is empty"], data := none }
    else
      let nullErrors := fields.filterMap fun kv =>
        if kv.2.isNull then some ("Field " ++ quoteKey kv.1 ++ " is null or undefined") else none
      if ¬ nullErrors.isEmpty then
        { valid := false, errors := nullErrors, data := none }
      else
        let errors :=
          (match (JsonVal.obj fields).getField "preferences" with
            | some v => if v.jsTruthy then validatePreferences v else []
            | none => []) ++
          (match (JsonVal.obj fields).getField "patterns" with
            | some v => if v.jsTruthy then validatePatterns v else []
            | none => []) ++
          (match (JsonVal.obj fields).getField "workflows" with
            | some v => if v.jsTruthy then validateWorkflows v else []
            | none => [])
        if ¬ errors.isEmpty then
          { valid := false, errors := errors, data := none }
        else
          { valid := true, errors := [], data := some (JsonVal.obj fields) }
  | _ => { valid := false, errors := ["Response is not an object"], data := none }
where
  /-- Wrap a key in single quotes as the source error message does. -/
  quoteKey (k : String) : String :=
    String.singleton (Char.ofNat 39) ++ k ++ String.singleton (Char.ofNat 39)

end UserProfileValidator

/-- The valid example payload from the spec:
`\x7bpreferences: [\x7bcategory:"x", description:"y", confidence:0.8, evidence:["z"]\x7d]\x7d`. -/
def goodProfilePayload : JsonVal :=
  .obj [("preferences", .arr [.obj
    [("category", .str "x"), ("description", .str "y"),
     ("confidence", .num (4/5)), ("evidence", .arr [.str "z"])]])]

/-- The same payload with `evidence: []`. -/
def badProfilePayload : JsonVal :=
  .obj [("preferences", .arr [.obj
    [("category", .str "x"), ("description", .str "y"),
     ("confidence", .num (4/5)), ("evidence", .arr [])]])]

/-- A chat message in the per-session history. -/
structure ChatMsg where
  role : String
  content : String
deriving Repr, DecidableEq

/-- One model reply in the bounded extraction loop, as discriminated by
`executeToolCall`: HTTP failure, abort-signal timeout, a body without
`choices[0]`, an assistant reply without invoking the declared function, a
tool call naming a different function, or a call of the declared function
whose `arguments` string parses to `some` payload (or fails to parse). -/
inductive ModelResponse where
  | httpError (status : Nat) (body : String)
  | abortTimeout
  | badFormat
  | reply (content : String)
  | wrongTool (name : String) (args : String)
  | toolCall (parsed : Option JsonVal)

/-- The discriminated error of a `ToolCallResult`; each constructor stands
for one of the distinct error strings built by `executeToolCall`. -/
inductive ToolCallError where
  | apiError (status : Nat) (body : String)
  | invalidResponseFormat
  | timeout
  | validationFailed (errors : List String)
  | maxIterationsReached (max : Nat)
deriving Repr, DecidableEq

/-- Result of `executeToolCall`. -/
structure ToolCallResult where
  success : Bool
  error : Option ToolCallError
  data : Option JsonVal
  iterations : Nat
deriving Repr

/-- The corrective retry instruction appended when the model replies
without invoking the declared function. -/
def retryPrompt : String :=
  "Please use the save_memories tool to extract and save the memories from the conversation as instructed."

/-- The body of the `while (iterations < maxIterations)` loop of
`OpenAIChatCompletionProvider.executeToolCall`. `oracle i` is the model's
response on the iteration numbered `i` (1-based, the post-increment value
of `iterations`); `fuel` is `maxIterations - iterations` and `msgs` the
message history. A transport error, a timeout, a malformed body, and an
invalid tool payload each return immediately; only a response that does
not invoke the declared function appends `retryPrompt` and loops. -/
def extractGo (oracle : Nat → ModelResponse) (maxIterations : Nat) :
    Nat → Nat → List ChatMsg → ToolCallResult × List ChatMsg
  | 0, iterations, msgs =>
    ({ success := false, error := some (.maxIterationsReached maxIterations),
       data := none, iterations := iterations }, msgs)
  | fuel + 1, iterations, msgs =>
    let i := iterations + 1
    match oracle i with
    | .httpError status body =>
      ({ success := false, error := some (.apiError status body),
         data := none, iterations := i }, msgs)
    | .abortTimeout =>
      ({ success := false, error := some .timeout,
         data := none, iterations := i }, msgs)
    | .badFormat =>
      ({ success := false, error := some .invalidResponseFormat,
         data := none, iterations := i }, msgs)
    | .reply c =>
      extractGo oracle maxIterations fuel i
        (msgs ++ [{ role := "assistant", content := c }, { role := "user", content := retryPrompt }])
    | .wrongTool _ _ =>
      extractGo oracle maxIterations fuel i
        (msgs ++ [{ role := "assistant", content := "" }, { role := "user", content := retryPrompt }])
    | .toolCall none =>
      ({ success := false, error := some (.validationFailed ["JSON parse error"]),
         data := none, iterations := i }, msgs ++ [{ role := "assistant", content := "" }])
    | .toolCall (some payload) =>
      let r := UserProfileValidator.validate payload
      if r.valid then
        ({ success := true, error := none, data := r.data, iterations := i },
         msgs ++ [{ role := "assistant", content := "" }])
      else
        ({ success := false, error := some (.validationFailed r.errors),
           data := none, iterations := i }, msgs ++ [{ role := "assistant", content := "" }])

/-- `executeToolCall` for a fresh session: history starts with the system
prompt and the user prompt, then the bounded loop runs with
`iterations = 0` and `maxIterations` as fuel. -/
def executeToolCall (oracle : Nat → ModelResponse) (maxIterations : Nat)
    (systemPrompt userPrompt : String) : ToolCallResult × List ChatMsg :=
  extractGo oracle maxIterations maxIterations 0
    [{ role := "system", content := systemPrompt }, { role := "user", content := userPrompt }]

/-- `Map.set` semantics on an insertion-ordered association list: replace
the first binding of the key in place, else append a new binding. -/
def aset {α : Type} : List (String × α) → String → α → List (String × α)
  | [], k, v => [(k, v)]
  | (k', v') :: rest, k, v =>
    if k' = k then (k, v) :: rest else (k', v') :: aset rest k v

/-- An entry of `CaptureBuffer.messages`. -/
structure MessageEntry where
  role : String
  content : String
  timestamp : Int
deriving Repr, DecidableEq

/-- An entry of `CaptureBuffer.tools`; the opaque `args` payload is kept as
its serialized form. -/
structure ToolEntry where
  name : String
  args : String
  result : String
  timestamp : Int
deriving Repr, DecidableEq

/-- The per-session capture buffer. -/
structure CaptureBuffer where
  sessionID : String
  iterationCount : Nat
  messages : List MessageEntry
  tools : List ToolEntry
  lastCaptureTime : Int
  fileEdits : Nat
deriving Repr, DecidableEq

/-- A freshly created (or freshly cleared) buffer for `sid` at time `now`. -/
def emptyBuffer (sid : String) (now : Int) : CaptureBuffer :=
  { sessionID := sid, iterationCount := 0, messages := [], tools := [],
    lastCaptureTime := now, fileEdits := 0 }

/-- The mutable state of `AutoCaptureService`: the buffer map, the
`capturing` set, and the configuration captured in the constructor
(`timeThreshold` already converted to milliseconds). -/
structure AutoCaptureService where
  buffers : List (String × CaptureBuffer)
  capturing : List String
  threshold : Nat
  timeThreshold : Int
  enabled : Bool
  maxMemories : Nat
deriving Repr

namespace AutoCaptureService

/-- `getOrCreateBuffer`: the session's buffer, lazily created with
`lastCaptureTime = now`. -/
def getOrCreateBuffer (now : Int) (sid : String) (s : AutoCaptureService) : CaptureBuffer :=
  (s.buffers.lookup sid).getD (emptyBuffer sid now)

/-- `onSessionIdle`: returns early when the feature is disabled or the
session is already capturing; otherwise increments the buffer's
`iterationCount` and reports eligibility by iteration count or elapsed
wall-clock time. -/
def onSessionIdle (now : Int) (sid : String) (s : AutoCaptureService) :
    Bool × AutoCaptureService :=
  if ¬ s.enabled then (false, s)
  else if sid ∈ s.capturing then (false, s)
  else
    let b0 := getOrCreateBuffer now sid s
    let b := { b0 with iterationCount := b0.iterationCount + 1 }
    let s' := { s with buffers := aset s.buffers sid b }
    let timeSinceCapture := now - b.lastCaptureTime
    let iterationMet : Bool := decide (s.threshold ≤ b.iterationCount)
    let timeMet : Bool := decide (0 < s.timeThreshold) && decide (s.timeThreshold ≤ timeSinceCapture)
    (iterationMet || timeMet, s')

/-- `addMessage`: a no-op when disabled, else append to the session's
buffer. -/
def addMessage (now : Int) (sid role content : String) (s : AutoCaptureService) :
    AutoCaptureService :=
  if ¬ s.enabled then s
  else
    let b := getOrCreateBuffer now sid s
    let b' := { b with messages := b.messages ++ [{ role := role, content := content, timestamp := now }] }
    { s with buffers := aset s.buffers sid b' }

/-- `addTool`: a no-op when disabled, else append to the session's buffer. -/
def addTool (now : Int) (sid name args result : String) (s : AutoCaptureService) :
    AutoCaptureService :=
  if ¬ s.enabled then s
  else
    let b := getOrCreateBuffer now sid s
    let b' := { b with tools := b.tools ++ [{ name := name, args := args, result := result, timestamp := now }] }
    { s with buffers := aset s.buffers sid b' }

/-- `onFileEdit`: a no-op when disabled, else increment the edit count. -/
def onFileEdit (now : Int) (sid : String) (s : AutoCaptureService) : AutoCaptureService :=
  if ¬ s.enabled then s
  else
    let b := getOrCreateBuffer now sid s
    { s with buffers := aset s.buffers sid { b with fileEdits := b.fileEdits + 1 } }

/-- `getSummaryPrompt`: empty string when the session has no buffer, else
the extraction instruction built from the buffered activity. -/
def getSummaryPrompt (sid : String) (s : AutoCaptureService) : String :=
  match s.buffers.lookup sid with
  | none => ""
  | some buffer =>
    let conversationText :=
      String.intercalate "\n\n"
        (buffer.messages.map fun m => m.role.toUpper ++ ": " ++ m.content)
    let toolsText :=
      if buffer.tools.length > 0 then
        "\n\nTools executed:\n" ++
          String.intercalate "\n" (buffer.tools.map fun t => "- " ++ t.name)
      else ""
    "Analyze the last " ++ toString buffer.iterationCount ++ " iterations of conversation.\n\nExtract distinct, actionable memories and categorize each by scope:\n\n**Scope definitions:**\n- \"user\": Cross-project user behaviors, preferences, patterns\n  Examples: \"prefers TypeScript\", \"likes concise responses\", \"uses vim keybindings\"\n  \n- \"project\": Project-specific knowledge, decisions, archit Examples: \"uses Bun runtime\", \"API at /api/v1\", \"database is PostgreSQL\"\n\n**Memory types:**\n- preference: User preferences\n- learned-pattern: User behavior patterns\n- project-config: Project configuration/setup\n- architecture: Project architecture decisions\n- error-solution: Solutions to specific errors\n- conversation: General conversation summary\n\nReturn JSON array (can be empty if nothing worth remembering):\n\x7b\n  \"memories\": [\n    \x7b\n      \"summary\": \"Clear, concise summary (max 200 chars)\",\n      \"scope\": \"user\" | \"project\",\n      \"type\": \"preference\" | \"learned-pattern\" | \"project-config\" | \"architecture\" | \"error-solution\" | \"conversation\",\n      \"reasoning\": \"Why this is worth remembering\"\n    \x7d\n  ]\n\x7d\n\nConversation:\n" ++ conversationText ++ toolsText ++ "\n\nIMPORTANT: \n- Only extract memories worth long-term retention\n- Be selective: quality over quantity\n- Each memory should be atomic and independent\n- Return empty array if nothing significant to remember\n- Maximum " ++ toString s.maxMemories ++ " memories per capture"

/-- `markCapturing`: add the session to the `capturing` set. -/
def markCapturing (sid : String) (s : AutoCaptureService) : AutoCaptureService :=
  { s with capturing := if sid ∈ s.capturing then s.capturing else s.capturing ++ [sid] }

/-- `clearBuffer`: reset the session's buffer to empty when one exists, and
always remove the session from the `capturing` set. -/
def clearBuffer (now : Int) (sid : String) (s : AutoCaptureService) : AutoCaptureService :=
  { s with
    buffers :=
      match s.buffers.lookup sid with
      | some _ => aset s.buffers sid (emptyBuffer sid now)
      | none => s.buffers
    capturing := s.capturing.filter (· ≠ sid) }

/-- `cleanup`: drop the session's buffer and capturing flag entirely. -/
def cleanup (sid : String) (s : AutoCaptureService) : AutoCaptureService :=
  { s with
    buffers := s.buffers.filter (fun p => p.1 ≠ sid)
    capturing := s.capturing.filter (· ≠ sid) }

end AutoCaptureService

/-- One entry of the parsed `CaptureResponse.memories` array. -/
structure MemoryEntry where
  summary : String
  scope : String
  type : String
  reasoning : String
deriving Repr, DecidableEq

/-- The external effects of one `performAutoCapture` run: the summarizer's
reply (`none` when `summarizeWithAI` throws), the JSON parse of that reply
(`none` when `JSON.parse` throws or `memories` is not an array), and the
outcome of the k-th `memoryClient.addMemory` call (`some id` on success). -/
structure CaptureEnv where
  summarize : Option String
  parseResponse : String → Option (List MemoryEntry)
  addResult : Nat → Option String

/-- The save loop of `performAutoCapture`: entries with a falsy summary,
scope or type are skipped; each remaining entry is attempted independently
and successes are collected in order. -/
def saveMemories (env : CaptureEnv) : List MemoryEntry → Nat → List (String × String)
  | [], _ => []
  | m :: rest, k =>
    if m.summary = "" || m.scope = "" || m.type = "" then
      saveMemories env rest k
    else
      match env.addResult k with
      | some id => (m.scope, id) :: saveMemories env rest (k + 1)
      | none => saveMemories env rest (k + 1)

/-- `performAutoCapture`: mark the session capturing, build the summary
prompt, run the summarizer, parse (falling back to a single truncated
`conversation` memory on parse failure), save at most `maxMemories`
entries, and clear the buffer on every path — including the catch path
taken when the summarizer throws or replies with an empty string. -/
def performAutoCapture (env : CaptureEnv) (maxMemories : Nat) (now : Int)
    (sid : String) (s : AutoCaptureService) :
    AutoCaptureService × List (String × String) :=
  let s1 := s.markCapturing sid
  let prompt := AutoCaptureService.getSummaryPrompt sid s1
  if prompt = "" then (s1.clearBuffer now sid, [])
  else
    match env.summarize with
    | none => (s1.clearBuffer now sid, [])
    | some resp =>
      if resp = "" then (s1.clearBuffer now sid, [])
      else
        let parsed :=
          match env.parseResponse resp with
          | some mems => mems
          | none =>
            [{ summary := resp.take 500, scope := "project", type := "conversation",
               reasoning := "Fallback capture due to parse error" }]
        let results := saveMemories env (parsed.take maxMemories) 0
        (s1.clearBuffer now sid, results)

/-- A persisted memory row of the `memories` table. Optional provenance
fields default to `none` and are carried through unchanged. -/
structure MemoryRecord where
  id : String
  content : String
  vector : List Rat
  containerTag : String
  type : Option String := none
  createdAt : Int
  updatedAt : Int
  metadata : Option String := none
  displayName : Option String := none
  userName : Option String := none
  userEmail : Option String := none
  projectPath : Option String := none
  projectName : Option String := none
  gitRepoUrl : Option String := none
deriving Repr, DecidableEq

/-- An item of a `listMemories` result. Timestamps stay numeric (the source
formats them to ISO strings for display); `metadata` stays serialized. -/
structure ListedMemory where
  id : String
  summary : String
  createdAt : Int
  metadata : Option String
deriving Repr, DecidableEq

/-- Row-to-listed-item conversion used by `listMemories`. -/
def toListed (r : MemoryRecord) : ListedMemory :=
  { id := r.id, summary := r.content, createdAt := r.createdAt, metadata := r.metadata }

/-- The comparator `(a, b) => Number(b.createdAt) - Number(a.createdAt)`:
`a` sorts no later than `b` when `b.createdAt ≤ a.createdAt`. JavaScript
`Array.prototype.sort` is a stable sort, modelled by the stable
`List.insertionSort`. -/
def byCreatedAtDesc (a b : MemoryRecord) : Prop :=
  b.createdAt ≤ a.createdAt

instance : DecidableRel byCreatedAtDesc := fun a b => Int.decLe b.createdAt a.createdAt

/-- `LocalMemoryClient.listMemories`: the stored query applies the
partition filter and the row `limit` in table (scan) order, and only then
does the in-process sort by `createdAt` descending run over the returned
page. -/
def listMemories (table : List MemoryRecord) (containerTag : String) (limit : Nat) :
    List ListedMemory :=
  let results := (table.filter fun r => r.containerTag = containerTag).take limit
  (results.insertionSort byCreatedAtDesc).map toListed

/-- Modelled from the spec claim's words, for comparison with
`listMemories`: the whole partition sorted by `createdAt` descending and
then truncated to `limit` — the `limit` most recently created records in
newest-first order. -/
def listMemoriesSpec (table : List MemoryRecord) (containerTag : String) (limit : Nat) :
    List ListedMemory :=
  (((table.filter fun r => r.containerTag = containerTag).insertionSort byCreatedAtDesc).take limit).map toListed

/-- Storage faults injected into `deleteMemory`: `some msg` makes the
underlying `table.delete` call throw with that message. -/
structure StoreEnv where
  deleteFails : String → Option String

/-- Result shape of `LocalMemoryClient.deleteMemory`. -/
structure DeleteResult where
  success : Bool
  error : Option String
deriving Repr, DecidableEq

/-- `LocalMemoryClient.deleteMemory`: delete-by-predicate on the exact id.
A throwing storage call is caught and reported as failure with the table
unchanged; otherwise the call succeeds whether or not any row matched. -/
def deleteMemory (env : StoreEnv) (table : List MemoryRecord) (memoryId : String) :
    DeleteResult × List MemoryRecord :=
  match env.deleteFails memoryId with
  | some msg => ({ success := false, error := some msg }, table)
  | none => ({ success := true, error := none }, table.filter fun r => r.id ≠ memoryId)

/-- An item of a `searchMemories` result. -/
structure SearchResult where
  id : String
  memory : String
  similarity : Rat
deriving Repr, DecidableEq

/-- `LocalMemoryClient.searchMemories`: nearest-neighbor query restricted
to the partition. `dist` is the index's distance from the embedded query
to a row's vector; rows come back in ascending distance, bounded by
`maxMemories`, scored `similarity = 1 - distance`, and filtered by the
similarity threshold. -/
def searchMemories (dist : List Rat → Rat) (similarityThreshold : Rat) (maxMemories : Nat)
    (table : List MemoryRecord) (containerTag : String) : List SearchResult :=
  let candidates := table.filter fun r => r.containerTag = containerTag
  let ranked := candidates.insertionSort fun a b => dist a.vector ≤ dist b.vector
  ((ranked.take maxMemories).map fun r =>
    ({ id := r.id, memory := r.content, similarity := 1 - dist r.vector } : SearchResult)).filter
    fun r => decide (similarityThreshold ≤ r.similarity)

/-- `MAX_CACHE_SIZE` of the embedding cache. -/
def maxCacheSize : Nat := 100

/-- The fixed process configuration and external effects seen by
`EmbeddingService.embed`: the configured model name, whether the remote
API backend is selected (endpoint and key present), whether loading the
local pipeline succeeds, and the active backend's answer for a text
(`none` = the call throws). -/
structure EmbedEnv where
  model : String
  useApi : Bool
  warmupOk : Bool
  backend : String → Option (List Rat)

/-- The mutable state of `EmbeddingService`: warm-up flags, the
insertion-ordered cache, and the model name the cache is scoped to. -/
structure EmbedState where
  isWarmedUp : Bool
  initInFlight : Bool
  pipeLoaded : Bool
  cache : List (String × List Rat)
  cachedModelName : Option String
deriving Repr

namespace EmbeddingService

/-- `EmbeddingService.embed`: invalidate the cache on a model-name change,
then consult the cache; only on a miss await warm-up and call the active
backend, evicting the oldest cache entry at the bound before inserting.
Returns the new state, the vector (`none` = the call threw), and the
number of backend invocations performed. -/
def embed (env : EmbedEnv) (s : EmbedState) (text : String) :
    EmbedState × Option (List Rat) × Nat :=
  let s1 :=
    if s.cachedModelName ≠ some env.model then
      { s with cache := [], cachedModelName := some env.model }
    else s
  match s1.cache.lookup text with
  | some cached => (s1, some cached, 0)
  | none =>
    let warmed : Option EmbedState :=
      if s1.isWarmedUp then some s1
      else if env.useApi then some { s1 with isWarmedUp := true, initInFlight := true }
      else if env.warmupOk then
        some { s1 with isWarmedUp := true, initInFlight := true, pipeLoaded := true }
      else none
    match warmed with
    | none => ({ s1 with initInFlight := false }, none, 0)
    | some s2 =>
      match env.backend text with
      | none => (s2, none, 1)
      | some result =>
        let cache :=
          (if maxCacheSize ≤ s2.cache.length then s2.cache.drop 1 else s2.cache) ++ [(text, result)]
        ({ s2 with cache := cache }, some result, 1)

end EmbeddingService

/-- Result shape of the REST handler `handleBulkDelete`. -/
structure BulkDeleteResult where
  success : Bool
  error : Option String
  deleted : Nat
deriving Repr, DecidableEq

/-- The `for (const id of ids)` loop of `handleBulkDelete`: attempt each id
in order, threading the table, counting the successes. -/
def bulkGo (env : StoreEnv) : List String → List MemoryRecord → Nat × List MemoryRecord
  | [], table => (0, table)
  | id :: rest, table =>
    let step := deleteMemory env table id
    let next := bulkGo env rest step.2
    ((if step.1.success then 1 else 0) + next.1, next.2)

/-- `handleBulkDelete`: reject a missing or empty `ids` array without
touching the store; otherwise delete each id independently and report the
success count. -/
def handleBulkDelete (env : StoreEnv) (ids : Option (List String))
    (table : List MemoryRecord) : BulkDeleteResult × List MemoryRecord :=
  match ids with
  | none => ({ success := false, error := some "ids array is required", deleted := 0 }, table)
  | some l =>
    if l.isEmpty then
      ({ success := false, error := some "ids array is required", deleted := 0 }, table)
    else
      let r := bulkGo env l table
      ({ success := true, error := none, deleted := r.1 }, r.2)

/-! Concrete inputs used by the claim scenarios. -/

/-- Capture service configured as in the spec scenario: iteration threshold
5, time threshold disabled, feature enabled, no activity yet. -/
def idleScenarioService : AutoCaptureService :=
  { buffers := [], capturing := [], threshold := 5, timeThreshold := 0,
    enabled := true, maxMemories := 5 }

/-- `n` successive `onSessionIdle` calls for session `"s1"` starting from
`idleScenarioService`; the first component is the `n`-th call's result. -/
def idleSeq : Nat → Bool × AutoCaptureService
  | 0 => (false, idleScenarioService)
  | n + 1 => AutoCaptureService.onSessionIdle 0 "s1" (idleSeq n).2

/-- Model double for the extraction-loop scenario: no tool call on
iterations 1–4, a valid call of the declared function on iteration 5. -/
def lateComplianceOracle : Nat → ModelResponse := fun i =>
  if i < 5 then .reply "working on it" else .toolCall (some goodProfilePayload)

/-- Model double that invokes the declared function immediately but with a
payload failing schema validation (empty `evidence`). -/
def invalidPayloadOracle : Nat → ModelResponse := fun _ =>
  .toolCall (some badProfilePayload)

/-- Two same-partition records: `recOlder` was inserted first and created
earlier. -/
def recOlder : MemoryRecord :=
  { id := "a", content := "older", vector := [0], containerTag := "t",
    createdAt := 1, updatedAt := 1 }

/-- The record inserted second and created later. -/
def recNewer : MemoryRecord :=
  { id := "b", content := "newer", vector := [0], containerTag := "t",
    createdAt := 2, updatedAt := 2 }

/-- A two-row table in insertion order: the older row first. -/
def twoRecordTable : List MemoryRecord := [recOlder, recNewer]

/-- A fault-free storage environment: no delete call throws. -/
def noFaultStore : StoreEnv := { deleteFails := fun _ => none }

/-- A storage environment where deleting the id `"bad"` throws. -/
def faultyStore : StoreEnv :=
  { deleteFails := fun id => if id = "bad" then some "boom" else none }

/-- A concrete embedding environment: local backend, successful warm-up,
every text embeds to `[1/2]`. -/
def demoEmbedEnv : EmbedEnv :=
  { model := "all-MiniLM-L6-v2", useApi := false, warmupOk := true,
    backend := fun _ => some [1/2] }

/-- A cold embedding-service state: nothing cached, never warmed up. -/
def coldEmbedState : EmbedState :=
  { isWarmedUp := false, initInFlight := false, pipeLoaded := false,
    cache := [], cachedModelName := none }

/-- A state with `"hello"` already cached for the configured model but the
service not yet warmed up and no initialization in flight. -/
def cachedColdState : EmbedState :=
  { isWarmedUp := false, initInFlight := false, pipeLoaded := false,
    cache := [("hello", [1/2])], cachedModelName := some "all-MiniLM-L6-v2" }

instance : IsTotal MemoryRecord byCreatedAtDesc :=
  ⟨fun a b => Int.le_total b.createdAt a.createdAt⟩

instance : IsTrans MemoryRecord byCreatedAtDesc :=
  ⟨fun _ _ _ hab hbc => le_trans hbc hab⟩

theorem lookup_aset {α : Type} (m : List (String × α)) (k : String) (v : α) :
    (aset m k v).lookup k = some v := by
  induction m with
  | nil => simp [aset]
  | cons p rest ih =>
    rcases p with ⟨k', v'⟩
    by_cases h : k' = k
    · simp [aset, h]
    · have hkk : (k == k') = false := beq_eq_false_iff_ne.mpr (Ne.symm h)
      simp [aset, h, List.lookup, hkk, ih]

/-- Claim C5. -/
theorem C5_validate_good_and_empty_evidence :
    (UserProfileValidator.validate goodProfilePayload).valid = true ∧
    (UserProfileValidator.validate badProfilePayload).valid = false ∧
    "preferences[0].evidence cannot be empty" ∈
      (UserProfileValidator.validate badProfilePayload).errors := by
  refine ⟨rfl, rfl, ?_⟩
  decide

/-- Claim C2. -/
theorem C2_extraction_loop_bounds :
    ((executeToolCall lateComplianceOracle 5 "sys" "usr").1.success = true ∧
     (executeToolCall lateComplianceOracle 5 "sys" "usr").1.iterations = 5) ∧
    ((executeToolCall lateComplianceOracle 4 "sys" "usr").1.success = false ∧
     (executeToolCall lateComplianceOracle 4 "sys" "usr").1.error =
       some (.maxIterationsReached 4) ∧
     (executeToolCall lateComplianceOracle 4 "sys" "usr").1.iterations = 4 ∧
     (∀ status body, (ToolCallError.maxIterationsReached 4) ≠ .apiError status body) ∧
     (ToolCallError.maxIterationsReached 4) ≠ .timeout) := by
  refine ⟨⟨rfl, rfl⟩, rfl, rfl, rfl, ?_, ?_⟩ <;> intros <;> simp

/-- Claim C3, counterexample. -/
theorem C3_counterexample_immediate_failure :
    (executeToolCall invalidPayloadOracle 5 "sys" "usr").1.success = false ∧
    (executeToolCall invalidPayloadOracle 5 "sys" "usr").1.iterations = 1 ∧
    1 < 5 ∧
    retryPrompt ∉
      ((executeToolCall invalidPayloadOracle 5 "sys" "usr").2.map ChatMsg.content) := by
  refine ⟨rfl, rfl, by decide, by decide⟩

/-- Claim C3, amended. -/
theorem C3_amended_invalid_payload_fails_immediately :
    ∀ (oracle : Nat → ModelResponse) (maxIterations : Nat) (p : JsonVal)
      (sp up : String),
      1 ≤ maxIterations →
      oracle 1 = .toolCall (some p) →
      (UserProfileValidator.validate p).valid = false →
      (executeToolCall oracle maxIterations sp up).1.success = false ∧
      (executeToolCall oracle maxIterations sp up).1.error =
        some (.validationFailed (UserProfileValidator.validate p).errors) ∧
      (executeToolCall oracle maxIterations sp up).1.iterations = 1 ∧
      (executeToolCall oracle maxIterations sp up).2 =
        [{ role := "system", content := sp }, { role := "user", content := up },
         { role := "assistant", content := "" }] := by
  intro oracle maxIterations p sp up hmax horacle hvalid
  obtain ⟨k, rfl⟩ : ∃ k, maxIterations = k + 1 :=
    ⟨maxIterations - 1, by omega⟩
  simp [executeToolCall, extractGo, horacle, hvalid]

/-- Claim C3, witness for the amended theorem. -/
theorem C3_amended_witness :
    (1 ≤ 5 ∧ invalidPayloadOracle 1 = .toolCall (some badProfilePayload) ∧
      (UserProfileValidator.validate badProfilePayload).valid = false) ∧
    (executeToolCall invalidPayloadOracle 5 "sw" "uw").1.success = false ∧
    (executeToolCall invalidPayloadOracle 5 "sw" "uw").1.error =
      some (.validationFailed (UserProfileValidator.validate badProfilePayload).errors) ∧
    (executeToolCall invalidPayloadOracle 5 "sw" "uw").1.iterations = 1 ∧
    (executeToolCall invalidPayloadOracle 5 "sw" "uw").2 =
      [{ role := "system", content := "sw" }, { role := "user", content := "uw" },
       { role := "assistant", content := "" }] :=
  ⟨⟨by omega, rfl, rfl⟩,
    C3_amended_invalid_payload_fails_immediately invalidPayloadOracle 5
      badProfilePayload "sw" "uw" (by omega) rfl rfl⟩

/-- Claim C6, counterexample. -/
theorem C6_counterexample_limit_before_sort :
    listMemories twoRecordTable "t" 1 ≠ listMemoriesSpec twoRecordTable "t" 1 ∧
    listMemories twoRecordTable "t" 1 = [toListed recOlder] ∧
    listMemoriesSpec twoRecordTable "t" 1 = [toListed recNewer] := by
  refine ⟨by decide, by decide, by decide⟩

/-- Claim C6, amended. -/
theorem C6_amended_sorted_page_of_first_matches :
    ∀ (table : List MemoryRecord) (tag : String) (limit : Nat),
      List.Sorted (fun a b => b.createdAt ≤ a.createdAt) (listMemories table tag limit) ∧
      (listMemories table tag limit).Perm
        (((table.filter fun r => r.containerTag = tag).take limit).map toListed) ∧
      (listMemories table tag limit).length ≤ limit := by
  intro table tag limit
  refine ⟨?_, ?_, ?_⟩
  · have hs := List.sorted_insertionSort byCreatedAtDesc
      ((table.filter fun r => r.containerTag = tag).take limit)
    unfold listMemories
    rw [List.Sorted, List.pairwise_map]
    exact hs.imp fun h => h
  · exact (List.perm_insertionSort byCreatedAtDesc _).map toListed
  · have hp := ((List.perm_insertionSort byCreatedAtDesc
      ((table.filter fun r => r.containerTag = tag).take limit)).map toListed).length_eq
    unfold listMemories
    rw [hp]
    simp [List.length_map, List.length_take]

/-- Claim C7, counterexample. -/
theorem C7_counterexample_unknown_id_succeeds :
    (twoRecordTable.all fun r => r.id != "zzz") = true ∧
    (deleteMemory noFaultStore twoRecordTable "zzz").1.success = true ∧
    (deleteMemory noFaultStore twoRecordTable "zzz").2 = twoRecordTable := by
  refine ⟨by decide, by decide, by decide⟩

/-- Claim C7, amended. -/
theorem C7_amended_delete_noop_or_exact_removal :
    ∀ (table : List MemoryRecord) (memoryId : String),
      (deleteMemory noFaultStore table memoryId).1.success = true ∧
      (∀ r, r ∈ (deleteMemory noFaultStore table memoryId).2 ↔
        (r ∈ table ∧ r.id ≠ memoryId)) ∧
      ((∀ r ∈ table, r.id ≠ memoryId) →
        (deleteMemory noFaultStore table memoryId).2 = table) ∧
      (∀ tag limit m, m ∈ listMemories (deleteMemory noFaultStore table memoryId).2 tag limit →
        m.id ≠ memoryId) ∧
      (∀ dist th maxN tag m,
        m ∈ searchMemories dist th maxN (deleteMemory noFaultStore table memoryId).2 tag →
        m.id ≠ memoryId) := by
  intro table memoryId
  have hdel : (deleteMemory noFaultStore table memoryId).2 =
      table.filter fun r => r.id ≠ memoryId := by
    simp [deleteMemory, noFaultStore]
  refine ⟨by simp [deleteMemory, noFaultStore], ?_, ?_, ?_, ?_⟩
  · intro r
    rw [hdel, List.mem_filter]
    simp
  · intro hall
    rw [hdel]
    apply List.filter_eq_self.mpr
    intro r hr
    simpa using hall r hr
  · intro tag limit m hm
    unfold listMemories at hm
    rw [List.mem_map] at hm
    obtain ⟨r, hr, rfl⟩ := hm
    have h1 : r ∈ (((deleteMemory noFaultStore table memoryId).2.filter
        fun rec => rec.containerTag = tag).take limit) :=
      (List.mem_insertionSort byCreatedAtDesc).mp hr
    have h2 := List.filter_subset' _ (List.take_subset _ _ h1)
    rw [hdel, List.mem_filter] at h2
    simpa [toListed] using h2.2
  · intro dist th maxN tag m hm
    unfold searchMemories at hm
    rw [List.mem_filter, List.mem_map] at hm
    obtain ⟨⟨r, hr, rfl⟩, _⟩ := hm
    have h1 := (List.mem_insertionSort _).mp (List.take_subset _ _ hr)
    have h2 := List.filter_subset' _ h1
    rw [hdel, List.mem_filter] at h2
    simpa using h2.2

/-- Claim C7, witness for the amended theorem. -/
theorem C7_amended_witness :
    (deleteMemory noFaultStore twoRecordTable "nope").1.success = true ∧
    (deleteMemory noFaultStore twoRecordTable "nope").2 = twoRecordTable :=
  ⟨(C7_amended_delete_noop_or_exact_removal twoRecordTable "nope").1,
   (C7_amended_delete_noop_or_exact_removal twoRecordTable "nope").2.2.1 (by decide)⟩

/-- The success of an individual `deleteMemory` call depends only on the
injected fault, not on the table contents. -/
theorem deleteMemory_success_indep (env : StoreEnv) (id : String)
    (t : List MemoryRecord) :
    (deleteMemory env t id).1.success = (env.deleteFails id).isNone := by
  unfold deleteMemory
  cases env.deleteFails id <;> simp

/-- Unfolding of the `handleBulkDelete` loop: the success count and the
final table of `bulkGo`. -/
theorem bulkGo_spec (env : StoreEnv) :
    ∀ (ids : List String) (table : List MemoryRecord),
      (bulkGo env ids table).1 = ids.countP (fun id => (env.deleteFails id).isNone) ∧
      (bulkGo env ids table).2 =
        ids.foldl (fun t id => (deleteMemory env t id).2) table := by
  intro ids
  induction ids with
  | nil => intro table; simp [bulkGo]
  | cons id rest ih =>
    intro table
    have h1 := (ih ((deleteMemory env table id).2)).1
    have h2 := (ih ((deleteMemory env table id).2)).2
    simp only [bulkGo, List.countP_cons, List.foldl_cons]
    refine ⟨?_, h2⟩
    rw [h1, deleteMemory_success_indep]
    cases (env.deleteFails id).isNone <;> simp [Nat.add_comm]

/-- Claim C10. -/
theorem C10_handleBulkDelete :
    ∀ (env : StoreEnv) (table : List MemoryRecord),
      (handleBulkDelete env none table =
        ({ success := false, error := some "ids array is required", deleted := 0 }, table)) ∧
      (handleBulkDelete env (some []) table =
        ({ success := false, error := some "ids array is required", deleted := 0 }, table)) ∧
      (∀ ids, ids ≠ [] →
        (handleBulkDelete env (some ids) table).1.success = true ∧
        (handleBulkDelete env (some ids) table).1.error = none ∧
        (handleBulkDelete env (some ids) table).1.deleted =
          ids.countP (fun id => (deleteMemory env table id).1.success) ∧
        (handleBulkDelete env (some ids) table).2 =
          ids.foldl (fun t id => (deleteMemory env t id).2) table) := by
  intro env table
  refine ⟨rfl, rfl, ?_⟩
  intro ids hne
  have hcount : (fun id => (deleteMemory env table id).1.success) =
      (fun id => (env.deleteFails id).isNone) :=
    funext fun id => deleteMemory_success_indep env id table
  have hempty : ids.isEmpty = false := by
    cases ids with
    | nil => exact absurd rfl hne
    | cons a l => rfl
  have hgo := bulkGo_spec env ids table
  simp only [handleBulkDelete, hempty, Bool.false_eq_true, if_false]
  rw [hcount]
  exact ⟨trivial, trivial, hgo.1, hgo.2⟩

/-- Claim C10, witness. -/
theorem C10_witness :
    (["a", "bad"] : List String) ≠ [] ∧
    (handleBulkDelete faultyStore (some ["a", "bad"]) twoRecordTable).1.success = true ∧
    (handleBulkDelete faultyStore (some ["a", "bad"]) twoRecordTable).1.deleted = 1 ∧
    (handleBulkDelete faultyStore (some []) twoRecordTable).2 = twoRecordTable :=
  ⟨by decide,
   ((C10_handleBulkDelete faultyStore twoRecordTable).2.2 ["a", "bad"] (by decide)).1,
   by
     rw [((C10_handleBulkDelete faultyStore twoRecordTable).2.2 ["a", "bad"] (by decide)).2.2.1]
     decide,
   by rw [(C10_handleBulkDelete faultyStore twoRecordTable).2.1]⟩

/-- Claim C1. -/
theorem C1_onSessionIdle_eligibility :
    (∀ (now : Int) (sid : String) (s : AutoCaptureService),
      ((AutoCaptureService.onSessionIdle now sid s).1 = true ↔
        (s.enabled = true ∧ sid ∉ s.capturing ∧
          (s.threshold ≤ (AutoCaptureService.getOrCreateBuffer now sid s).iterationCount + 1 ∨
            (0 < s.timeThreshold ∧
              s.timeThreshold ≤
                now - (AutoCaptureService.getOrCreateBuffer now sid s).lastCaptureTime))))) ∧
    ((idleSeq 1).1 = false ∧ (idleSeq 2).1 = false ∧ (idleSeq 3).1 = false ∧
      (idleSeq 4).1 = false ∧ (idleSeq 5).1 = true) := by
  constructor
  · intro now sid s
    by_cases he : s.enabled
    · by_cases hc : sid ∈ s.capturing
      · simp [AutoCaptureService.onSessionIdle, he, hc]
      · simp [AutoCaptureService.onSessionIdle, he, hc]
    · simp [AutoCaptureService.onSessionIdle, he]
  · exact ⟨by decide, by decide, by decide, by decide, by decide⟩

/-- `clearBuffer` unconditionally removes the capturing flag and leaves the
session's buffer absent or empty. -/
theorem clearBuffer_resets (now : Int) (sid : String) (s : AutoCaptureService) :
    sid ∉ (AutoCaptureService.clearBuffer now sid s).capturing ∧
    ((AutoCaptureService.clearBuffer now sid s).buffers.lookup sid = none ∨
      (AutoCaptureService.clearBuffer now sid s).buffers.lookup sid =
        some (emptyBuffer sid now)) := by
  constructor
  · intro hmem
    unfold AutoCaptureService.clearBuffer at hmem
    simp [List.mem_filter] at hmem
  · cases h : s.buffers.lookup sid with
    | none =>
      left
      simp [AutoCaptureService.clearBuffer, h]
    | some b =>
      right
      simp only [AutoCaptureService.clearBuffer, h]
      exact lookup_aset s.buffers sid (emptyBuffer sid now)

/-- Claim C4. -/
theorem C4_capture_always_returns_to_idle :
    ∀ (env : CaptureEnv) (maxMemories : Nat) (now : Int) (sid : String)
      (s : AutoCaptureService),
      sid ∉ (performAutoCapture env maxMemories now sid s).1.capturing ∧
      ((performAutoCapture env maxMemories now sid s).1.buffers.lookup sid = none ∨
        (performAutoCapture env maxMemories now sid s).1.buffers.lookup sid =
          some (emptyBuffer sid now)) := by
  intro env maxMemories now sid s
  have h : (performAutoCapture env maxMemories now sid s).1 =
      AutoCaptureService.clearBuffer now sid (AutoCaptureService.markCapturing sid s) := by
    simp only [performAutoCapture]
    split
    · rfl
    · split
      · rfl
      · split <;> rfl
  rw [h]
  exact clearBuffer_resets now sid _

theorem lookup_append_left_none {α : Type} (l₁ l₂ : List (String × α)) (k : String)
    (h : l₁.lookup k = none) : (l₁ ++ l₂).lookup k = l₂.lookup k := by
  induction l₁ with
  | nil => simp
  | cons p rest ih =>
    rcases p with ⟨k', v'⟩
    cases hk : (k == k') with
    | true =>
      simp only [List.lookup, hk] at h
      exact Option.noConfusion h
    | false =>
      simp only [List.cons_append, List.lookup, hk] at h ⊢
      exact ih h

theorem lookup_drop_one_none {α : Type} (l : List (String × α)) (k : String)
    (h : l.lookup k = none) : (l.drop 1).lookup k = none := by
  cases l with
  | nil => simp
  | cons p rest =>
    rcases p with ⟨k', v'⟩
    cases hk : (k == k') with
    | true =>
      simp only [List.lookup, hk] at h
      exact Option.noConfusion h
    | false =>
      simp only [List.lookup, hk] at h
      simpa using h

theorem lookup_singleton {α : Type} (k : String) (v : α) :
    ([(k, v)] : List (String × α)).lookup k = some v := by
  simp [List.lookup]

/-- Inserting a missing text at the back of the cache (after the possible
eviction of the oldest entry) makes it found. -/
theorem lookup_insert_after_miss (c : List (String × List Rat)) (t : String) (r : List Rat)
    (h : c.lookup t = none) :
    ((if maxCacheSize ≤ c.length then c.drop 1 else c) ++ [(t, r)]).lookup t = some r := by
  have hpre : ((if maxCacheSize ≤ c.length then c.drop 1 else c) :
      List (String × List Rat)).lookup t = none := by
    split
    · exact lookup_drop_one_none _ _ h
    · exact h
  rw [lookup_append_left_none _ _ _ hpre, lookup_singleton]

/-- A cache hit: when the cache is already scoped to the configured model
and holds the text, `embed` returns the cached vector with the state
untouched and no backend invocation. -/
theorem embed_cache_hit (env : EmbedEnv) (s : EmbedState) (t : String) (v : List Rat)
    (hm : s.cachedModelName = some env.model) (hl : s.cache.lookup t = some v) :
    EmbeddingService.embed env s t = (s, some v, 0) := by
  unfold EmbeddingService.embed
  simp [hm, hl]

/-- After a call of `embed` that returns a vector, the state is scoped to
the configured model and caches that vector for the text. -/
theorem embed_post_cached (env : EmbedEnv) (s : EmbedState) (t : String) (v : List Rat)
    (h : (EmbeddingService.embed env s t).2.1 = some v) :
    (EmbeddingService.embed env s t).1.cachedModelName = some env.model ∧
    (EmbeddingService.embed env s t).1.cache.lookup t = some v := by
  unfold EmbeddingService.embed at h ⊢
  set s1 := (if s.cachedModelName ≠ some env.model then
    { s with cache := [], cachedModelName := some env.model } else s) with hs1
  have hm1 : s1.cachedModelName = some env.model := by
    rw [hs1]
    split
    · rfl
    · next hne => exact not_not.mp hne
  cases hl : s1.cache.lookup t with
  | some cached =>
    simp only [hl] at h ⊢
    have h' : some cached = some v := h
    cases h'
    exact ⟨hm1, rfl⟩
  | none =>
    simp only [hl] at h ⊢
    by_cases hw : s1.isWarmedUp
    · simp only [hw, if_true] at h ⊢
      cases hb : env.backend t with
      | none =>
        rw [hb] at h
        exact Option.noConfusion h
      | some result =>
        rw [hb] at h
        have h' : some result = some v := h
        cases h'
        exact ⟨hm1, lookup_insert_after_miss s1.cache t v hl⟩
    · simp only [Bool.not_eq_true] at hw
      simp only [hw, Bool.false_eq_true, if_false] at h ⊢
      by_cases hapi : env.useApi
      · simp only [hapi, if_true] at h ⊢
        cases hb : env.backend t with
        | none =>
          rw [hb] at h
          exact Option.noConfusion h
        | some result =>
          rw [hb] at h
          have h' : some result = some v := h
          cases h'
          exact ⟨hm1, lookup_insert_after_miss s1.cache t v hl⟩
      · simp only [Bool.not_eq_true] at hapi
        simp only [hapi, Bool.false_eq_true, if_false] at h ⊢
        by_cases hok : env.warmupOk
        · simp only [hok, if_true] at h ⊢
          cases hb : env.backend t with
          | none =>
            rw [hb] at h
            exact Option.noConfusion h
          | some result =>
            rw [hb] at h
            have h' : some result = some v := h
            cases h'
            exact ⟨hm1, lookup_insert_after_miss s1.cache t v hl⟩
        · simp only [Bool.not_eq_true] at hok
          simp only [hok, Bool.false_eq_true, if_false] at h
          exact Option.noConfusion h

/-- Claim C8. -/
theorem C8_second_embed_is_cache_hit :
    ∀ (env : EmbedEnv) (s : EmbedState) (t : String) (v : List Rat),
      (EmbeddingService.embed env s t).2.1 = some v →
      EmbeddingService.embed env (EmbeddingService.embed env s t).1 t =
        ((EmbeddingService.embed env s t).1, some v, 0) := by
  intro env s t v h
  obtain ⟨hm, hl⟩ := embed_post_cached env s t v h
  exact embed_cache_hit env _ t v hm hl

/-- Claim C8, witness. -/
theorem C8_second_embed_witness :
    (EmbeddingService.embed demoEmbedEnv coldEmbedState "hi").2.1 = some [1/2] ∧
    EmbeddingService.embed demoEmbedEnv
        (EmbeddingService.embed demoEmbedEnv coldEmbedState "hi").1 "hi" =
      ((EmbeddingService.embed demoEmbedEnv coldEmbedState "hi").1, some [1/2], 0) :=
  ⟨rfl, C8_second_embed_is_cache_hit demoEmbedEnv coldEmbedState "hi" [1/2] rfl⟩

/-- Claim C9. -/
theorem C9_cache_hit_skips_warmup :
    ∀ (env : EmbedEnv) (s : EmbedState) (t : String) (v : List Rat),
      s.cachedModelName = some env.model →
      s.cache.lookup t = some v →
      s.isWarmedUp = false →
      s.initInFlight = false →
      (EmbeddingService.embed env s t = (s, some v, 0) ∧
        (EmbeddingService.embed env s t).1.isWarmedUp = false ∧
        (EmbeddingService.embed env s t).1.initInFlight = false) := by
  intro env s t v hm hl hw hi
  have he := embed_cache_hit env s t v hm hl
  refine ⟨he, ?_, ?_⟩
  · rw [he]
    exact hw
  · rw [he]
    exact hi

/-- Claim C9, witness. -/
theorem C9_cache_hit_witness :
    (cachedColdState.cachedModelName = some demoEmbedEnv.model ∧
     cachedColdState.cache.lookup "hello" = some [1/2] ∧
     cachedColdState.isWarmedUp = false ∧
     cachedColdState.initInFlight = false) ∧
    EmbeddingService.embed demoEmbedEnv cachedColdState "hello" =
      (cachedColdState, some [1/2], 0) :=
  ⟨⟨rfl, rfl, rfl, rfl⟩,
   (C9_cache_hit_skips_warmup demoEmbedEnv cachedColdState "hello" [1/2]
      rfl rfl rfl rfl).1⟩
